import Mathlib

/-!
Verification development for the OpenDiamond searchlet / storage-stub core.

The definitions below are a shallow embedding of the C sources:
  src/lib/libsearchlet/lib_search_priv.h   (constants, status enum, context)
  src/lib/libsearchlet/ls_dctl.c           (dctl request processing)
  src/lib/transport/socket/storagestub/sstub_api.c  (object rings, headers)
  src/lib/libfilterexec/lib_ocache.h       (cache entry types, signatures)
Machine integers are modelled as Nat with explicit reduction modulo 2 ^ w
where C truncation occurs; C int return codes are Nat or Int as noted.
Code of the repository that is only declared in the headers (the odisk
reader loop, the ocache persistence thread, cache_wait_lookup, the ring
implementation) is modelled from the specification and marked as such in
the corresponding doc comments.
-/

/-- Constant `LS_OBJ_PEND_HW` from lib_search_priv.h, line 12. -/
def LS_OBJ_PEND_HW : Nat := 60

/-- Constant `LS_OBJ_PEND_LW` from lib_search_priv.h, line 13. -/
def LS_OBJ_PEND_LW : Nat := 55

/-- The `search_status_t` enumeration from lib_search_priv.h, lines 47-53. -/
inductive search_status_t where
  | SS_ACTIVE
  | SS_DONE
  | SS_EMPTY
  | SS_SHUTDOWN
  | SS_IDLE
deriving DecidableEq, Repr

/-- The fields of `search_context_t` (lib_search_priv.h, lines 68-83) that
the claims refer to.  Ring pointers and cookies are elided; counters are Nat. -/
structure search_context_t where
  cur_search_id : Nat
  cur_status : search_status_t
  pend_hw : Nat
  pend_lw : Nat
  pend_count : Nat
deriving DecidableEq, Repr

/-- Modelled from the spec: creation of a fresh search context (the
initialization code is not in src); it starts IDLE with zero pending
objects and the default watermarks `LS_OBJ_PEND_HW` / `LS_OBJ_PEND_LW`
declared in lib_search_priv.h. -/
def default_search_context : search_context_t :=
  { cur_search_id := 0
    cur_status := search_status_t.SS_IDLE
    pend_hw := LS_OBJ_PEND_HW
    pend_lw := LS_OBJ_PEND_LW
    pend_count := 0 }

/-- Modelled from the spec: the lifecycle transition relation of a search
context (the command-processing code that drives these transitions is not
in src).  Edges follow the machine
IDLE -start-> ACTIVE -odisk EOF-> DONE -drain-> EMPTY -stop-> IDLE,
with shutdown leading from any state to SHUTDOWN. -/
inductive lifecycleStep : search_status_t → search_status_t → Prop where
  | start : lifecycleStep search_status_t.SS_IDLE search_status_t.SS_ACTIVE
  | odiskEof : lifecycleStep search_status_t.SS_ACTIVE search_status_t.SS_DONE
  | drain : lifecycleStep search_status_t.SS_DONE search_status_t.SS_EMPTY
  | stop : lifecycleStep search_status_t.SS_EMPTY search_status_t.SS_IDLE
  | shutdown (s : search_status_t) : lifecycleStep s search_status_t.SS_SHUTDOWN

/-- Truncation modulus for a C cast to uint32_t. -/
def UINT32_MOD : Nat := 2 ^ 32

/-- The libc htonl function modelled as the 32-bit byte swap (little-endian
host to network order); external to the repository but used by sstub_api.c. -/
def htonl (x : Nat) : Nat :=
  let y := x % UINT32_MOD
  (y % 256) * 16777216 + (y / 256 % 256) * 65536 + (y / 65536 % 256) * 256
    + (y / 16777216 % 256)

/-- Command code CNTL_CMD_GET_OBJ; the numeric value lives in socket_trans.h
which is not in src, so an arbitrary distinct value is used (no claim
depends on it). -/
def CNTL_CMD_GET_OBJ : Nat := 30

/-- Command code CNTL_CMD_LLEAFS_DONE; value not in src, arbitrary. -/
def CNTL_CMD_LLEAFS_DONE : Nat := 31

/-- Command code CNTL_CMD_LNODES_DONE; value not in src, arbitrary. -/
def CNTL_CMD_LNODES_DONE : Nat := 32

/-- The `control_header_t` fields assigned in sstub_api.c; all four are
32-bit quantities on the wire. -/
structure control_header_t where
  generation_number : Nat
  command : Nat
  data_len : Nat
  spare : Nat
deriving DecidableEq, Repr

/-- The control header built by `sstub_get_obj` (sstub_api.c, lines 225-228):
generation 0, command CNTL_CMD_GET_OBJ, data length the sub-header size, and
`spare = (uint32_t) shead`, i.e. the sub-header address reduced mod 2 ^ 32.
The address returned by malloc is the parameter `shead_addr`; `shead_size`
stands for sizeof(get_obj_header_t), whose layout is not in src. -/
def sstub_get_obj_cheader (shead_addr shead_size : Nat) : control_header_t :=
  { generation_number := 0
    command := htonl CNTL_CMD_GET_OBJ
    data_len := htonl shead_size
    spare := shead_addr % UINT32_MOD }

/-- The control header built by `sstub_lleaf_response` (sstub_api.c, lines
416-419): command CNTL_CMD_LLEAFS_DONE and `spare = (uint32_t) shead`. -/
def sstub_lleaf_response_cheader (shead_addr tot_len : Nat) : control_header_t :=
  { generation_number := 0
    command := htonl CNTL_CMD_LLEAFS_DONE
    data_len := htonl tot_len
    spare := shead_addr % UINT32_MOD }

/-- The control header built by `sstub_lnode_response` (sstub_api.c, lines
497-500): command CNTL_CMD_LNODES_DONE and `spare = (uint32_t) shead`. -/
def sstub_lnode_response_cheader (shead_addr tot_len : Nat) : control_header_t :=
  { generation_number := 0
    command := htonl CNTL_CMD_LNODES_DONE
    data_len := htonl tot_len
    spare := shead_addr % UINT32_MOD }

/-- The dctl operation codes used by ls_dctl.c (the enum itself lives in
lib_dctl.h, not in src; only the constructors referenced by the code are
modelled). -/
inductive dctl_op_t where
  | DCTL_OP_READ
  | DCTL_OP_WRITE
  | DCTL_OP_LIST_NODES
  | DCTL_OP_LIST_LEAFS
  | DCTL_OP_REPLY
deriving DecidableEq, Repr

/-- One reply message sent back on the dctl connection, at the granularity
of the three senders in ls_dctl.c: `send_err_response` (lines 44-60) sends a
header with the error code and no payload; `send_read_response` (63-85)
sends a header plus the contents of the shared static `data_buffer`;
`send_list_response` (87-111) sends a header plus `entry_buffer` entries. -/
inductive dctl_reply where
  | err_reply (err_code : Int)
  | read_reply (dtype : Nat) (len : Nat) (buf : List Nat)
  | list_reply (num_ents : Nat) (ents : List Nat)
deriving DecidableEq, Repr

/-- Outcome of the external dctl library call made inside `process_request`
(dctl_read_leaf / dctl_write_leaf / dctl_list_nodes / dctl_list_leafs are
not in src): the returned error code, the returned data type, the returned
length or entry count, and the contents the call left in the shared static
buffer (`data_buffer` or `entry_buffer`). -/
structure dctl_result where
  err : Int
  dtype : Nat
  len : Nat
  buf : List Nat
deriving DecidableEq, Repr

/-- The errno constant ENOMEM tested by the asserts of ls_dctl.c; its
numeric value comes from errno.h (external to the repository, 12 on
Linux); the development only relies on it being nonzero. -/
def ENOMEM : Int := 12

/-- Shallow embedding of `process_request` (ls_dctl.c, lines 115-175) as the
list of replies it sends on the connection, in order; `none` means the
program aborts before sending anything.  Every branch first runs an active
assert(err != ENOMEM) (lines 134, 145, 152, 162), so at err = ENOMEM the
program aborts and no reply is sent.  Past the assert, the C code for READ
and the two LIST operations sends an error reply when `err` is nonzero and
then falls through to the normal reply built from the shared static buffer;
WRITE sends exactly the one error-code reply.  The default branch is
assert(0), which always aborts. -/
def process_request (cmd : dctl_op_t) (res : dctl_result) :
    Option (List dctl_reply) :=
  match cmd with
  | dctl_op_t.DCTL_OP_READ =>
      if res.err = ENOMEM then none
      else some ((if res.err ≠ 0 then [dctl_reply.err_reply res.err] else [])
        ++ [dctl_reply.read_reply res.dtype res.len res.buf])
  | dctl_op_t.DCTL_OP_WRITE =>
      if res.err = ENOMEM then none
      else some [dctl_reply.err_reply res.err]
  | dctl_op_t.DCTL_OP_LIST_NODES =>
      if res.err = ENOMEM then none
      else some ((if res.err ≠ 0 then [dctl_reply.err_reply res.err] else [])
        ++ [dctl_reply.list_reply res.len res.buf])
  | dctl_op_t.DCTL_OP_LIST_LEAFS =>
      if res.err = ENOMEM then none
      else some ((if res.err ≠ 0 then [dctl_reply.err_reply res.err] else [])
        ++ [dctl_reply.list_reply res.len res.buf])
  | dctl_op_t.DCTL_OP_REPLY => none

/-- A double-slot ring (ring_2enq / ring_2deq) holding (object, version)
pairs.  The ring implementation is not in src; modelled from the spec as a
bounded FIFO whose enqueue is non-blocking and fails when full. -/
structure obj_ring where
  cap : Nat
  items : List (Nat × Int)
deriving DecidableEq, Repr

/-- Error code returned by ring_2enq on a full ring (ring code not in src;
the claims only need it to be nonzero). -/
def RING_ERR_FULL : Nat := 1

/-- Modelled from the spec: `ring_2enq` appends the pair at the tail and
returns 0, or leaves the ring unchanged and returns the full-ring error
code when the ring is at capacity. -/
def ring_2enq (r : obj_ring) (obj : Nat) (ver : Int) : obj_ring × Nat :=
  if r.cap ≤ r.items.length then (r, RING_ERR_FULL)
  else ({ r with items := r.items ++ [(obj, ver)] }, 0)

/-- The CSTATE_OBJ_DATA flag bit set by `sstub_send_obj`; its numeric value
lives in sstub_impl.h, not in src. -/
def CSTATE_OBJ_DATA : Nat := 16

/-- The per-connection state fields of `cstate_t` used by sstub_api.c:
the flag word, the complete-object ring and the partial-object ring. -/
structure cstate_t where
  flags : Nat
  complete_obj_ring : obj_ring
  part_obj_ring : obj_ring
deriving DecidableEq, Repr

/-- Shallow embedding of `sstub_send_obj` (sstub_api.c, lines 81-121): set
CSTATE_OBJ_DATA, enqueue (obj, ver_no) on the complete-object ring when
`complete` is nonzero and on the partial-object ring otherwise, and return
the enqueue error code (0 on success). -/
def sstub_send_obj (cs : cstate_t) (obj : Nat) (ver_no : Int) (complete : Int) :
    cstate_t × Nat :=
  let cs1 := { cs with flags := cs.flags ||| CSTATE_OBJ_DATA }
  if complete ≠ 0 then
    let p := ring_2enq cs1.complete_obj_ring obj ver_no
    ({ cs1 with complete_obj_ring := p.1 }, p.2)
  else
    let p := ring_2enq cs1.part_obj_ring obj ver_no
    ({ cs1 with part_obj_ring := p.1 }, p.2)

/-- The dequeue-and-release loop of `sstub_flush_objs` applied to one ring:
`ring_2deq` until empty, invoking release_obj_cb on the object slot of each
dequeued pair (the version slot is ignored).  Returns the release-callback
argument list in dequeue order. -/
def flush_ring_items : List (Nat × Int) → List Nat
  | [] => []
  | (obj, _) :: rest => obj :: flush_ring_items rest

/-- Shallow embedding of `sstub_flush_objs` (sstub_api.c, lines 148-203):
drain the complete-object ring, then the partial-object ring, calling the
release callback once per dequeued object; returns the new connection
state, the ordered list of released objects and the return value 0. -/
def sstub_flush_objs (cs : cstate_t) (ver_no : Int) : cstate_t × List Nat × Nat :=
  let rel1 := flush_ring_items cs.complete_obj_ring.items
  let rel2 := flush_ring_items cs.part_obj_ring.items
  ({ cs with
      complete_obj_ring := { cs.complete_obj_ring with items := [] }
      part_obj_ring := { cs.part_obj_ring with items := [] } },
    rel1 ++ rel2, 0)

/-- The `cache_attr_entry` of lib_ocache.h, lines 29-34: an attribute name
(modelled by an identifier and its length) together with a 16-byte
signature of the attribute value. -/
structure cache_attr_entry where
  name_len : Nat
  attr_name : Nat
  attr_sig : List Nat
deriving DecidableEq, Repr

/-- Byte-wise comparison of two signatures (the memcmp of the 16-byte
digest by which the cache code compares signatures; comparison sites are
not in src and are modelled from the spec sentence that signatures compare
equal iff their bytes are equal). -/
def sig_match : List Nat → List Nat → Bool
  | [], [] => true
  | a :: x, b :: y => (a == b) && sig_match x y
  | _, _ => false

/-- One mixing step of the modelled digest: byte `b`, the i-th byte of the
buffer, is folded into position i mod 16 of the running 16-byte state. -/
def sig_mix (st : List Nat) (i b : Nat) : List Nat :=
  st.set (i % 16) ((st.getD (i % 16) 0 + b) % 256)

/-- Folds the whole buffer into the digest state. -/
def sig_fold : List Nat → Nat → List Nat → List Nat
  | st, _, [] => st
  | st, i, b :: rest => sig_fold (sig_mix st i b) (i + 1) rest

/-- Modelled from the spec: `sig_cal` (declared in lib_ocache.h, line 138;
its implementation is not in src) computes an opaque 16-byte digest of a
byte buffer.  The concrete mixing function is unspecified in the spec; a
simple position-wise additive fold is used here.  The impossibility result
proved below (a collision exists) holds for every function that returns a
16-byte digest, so it does not depend on this choice. -/
def sig_cal (buf : List Nat) : List Nat :=
  sig_fold (List.replicate 16 0) 0 buf

/-- Base-256 value of a byte list, least significant byte first. -/
def bytes_val : List Nat → Nat
  | [] => 0
  | b :: rest => b + 256 * bytes_val rest

/-- The typed cache-insert ring entries of lib_ocache.h, lines 88-108: the
type tags INSERT_START, INSERT_IATTR, INSERT_OATTR, INSERT_END together
with the union payload, as one inductive.  The opaque cache-table pointer
of `cache_start_entry` is modelled by an identifier. -/
inductive cache_ring_entry where
  | insert_start (oid : Nat) (cache_table : Nat)
  | insert_iattr (oid : Nat) (attr : cache_attr_entry)
  | insert_oattr (oid : Nat) (attr : cache_attr_entry)
  | insert_end (oid : Nat) (result : Int)
deriving DecidableEq, Repr

/-- Recognizes an INSERT_END entry. -/
def is_insert_end : cache_ring_entry → Bool
  | cache_ring_entry.insert_end _ _ => true
  | _ => false

/-- A committed cache record, as materialized by the persistence thread:
object id, input attribute set, output attribute set and the result. -/
structure cache_record where
  oid : Nat
  iattr : List cache_attr_entry
  oattr : List cache_attr_entry
  result : Int
deriving DecidableEq, Repr

/-- The in-memory builder the persistence thread accumulates between an
INSERT_START and the matching INSERT_END. -/
structure insert_builder where
  oid : Nat
  iattr : List cache_attr_entry
  oattr : List cache_attr_entry
deriving DecidableEq, Repr

/-- Modelled from the spec: one consumption step of the persistence thread
(the thread body is not in src).  INSERT_START opens a builder,
INSERT_IATTR and INSERT_OATTR accumulate into it, and only INSERT_END
commits the accumulated record; entries arriving with no open builder are
dropped. -/
def consume_step :
    Option insert_builder × List cache_record → cache_ring_entry →
    Option insert_builder × List cache_record
  | (_, recs), cache_ring_entry.insert_start oid _ =>
      (some { oid := oid, iattr := [], oattr := [] }, recs)
  | (some b, recs), cache_ring_entry.insert_iattr _ a =>
      (some { b with iattr := b.iattr ++ [a] }, recs)
  | (some b, recs), cache_ring_entry.insert_oattr _ a =>
      (some { b with oattr := b.oattr ++ [a] }, recs)
  | (some b, recs), cache_ring_entry.insert_end _ res =>
      (none, recs ++ [{ oid := b.oid, iattr := b.iattr, oattr := b.oattr,
                        result := res }])
  | (none, recs), _ => (none, recs)

/-- Records materialized by the persistence thread after consuming a whole
entry stream, starting with no open builder. -/
def consume_records (stream : List cache_ring_entry) : List cache_record :=
  (stream.foldl consume_step (none, [])).2

/-- The well-formed insert stream for one object id:
INSERT_START, then the input attributes, then the output attributes, then
INSERT_END (lib_ocache.h tags, spec insert protocol). -/
def insert_stream (oid cache_table : Nat) (ia oa : List cache_attr_entry)
    (res : Int) : List cache_ring_entry :=
  cache_ring_entry.insert_start oid cache_table
    :: (ia.map (cache_ring_entry.insert_iattr oid)
        ++ oa.map (cache_ring_entry.insert_oattr oid)
        ++ [cache_ring_entry.insert_end oid res])

/-- The flow-control state of one search context that the backpressure
claims are about: the in-flight object count `pend_count` and whether the
odisk-reader thread is currently suspended on the condition variable. -/
structure bp_state where
  pend_count : Nat
  blocked : Bool
deriving DecidableEq, Repr

/-- The initial flow-control state: nothing pending, reader running. -/
def bp_init : bp_state := { pend_count := 0, blocked := false }

/-- Modelled from the spec: the flow-control transitions of the odisk
reader (the reader loop is not in src).  A `read` puts one more object in
flight; it is enabled only while the reader is not suspended and
`pend_count` is below the high watermark `hw`, and it suspends the reader
exactly when the count reaches `hw`.  A `release` (client releases an
object) takes one object out of flight and wakes the reader only once the
count has fallen to the low watermark `lw`. -/
inductive bp_step (hw lw : Nat) : bp_state → bp_state → Prop where
  | read (s : bp_state) (hnb : s.blocked = false) (hlt : s.pend_count < hw) :
      bp_step hw lw s
        { pend_count := s.pend_count + 1
          blocked := decide (hw ≤ s.pend_count + 1) }
  | release (s : bp_state) (hpos : 0 < s.pend_count) :
      bp_step hw lw s
        { pend_count := s.pend_count - 1
          blocked := s.blocked && decide (lw < s.pend_count - 1) }

/-- States of one search run reachable from the initial flow-control
state. -/
inductive bp_reachable (hw lw : Nat) : bp_state → Prop where
  | init : bp_reachable hw lw bp_init
  | step {s t : bp_state} : bp_reachable hw lw s → bp_step hw lw s t →
      bp_reachable hw lw t

/-- Phase of one thread engaged in `cache_wait_lookup` on a fixed
(fsig, oid) key: not yet arrived, blocked waiting for the evaluating
thread, currently evaluating (between add_start and add_end), or finished
with a result. -/
inductive thread_phase where
  | idle
  | waiting
  | evaluating
  | done (res : Int)
deriving DecidableEq, Repr

/-- Modelled from the spec: the shared state of N threads calling
`cache_wait_lookup` on one (fsig, oid) key with an initially empty cache
(the cache_wait_lookup implementation is not in src; the spec prescribes a
per-key pending map where the first caller installs itself and later
callers await).  `cache` is the committed entry for the key, `busy` is the
pending-map bit for the key, and `end_count` counts the INSERT_END entries
emitted for the key. -/
structure wl_state (n : Nat) where
  threads : Fin n → thread_phase
  cache : Option Int
  busy : Bool
  end_count : Nat

/-- The initial wait-lookup state: every thread idle, no cached entry, no
evaluation pending, no INSERT_END emitted. -/
def wl_init (n : Nat) : wl_state n :=
  { threads := fun _ => thread_phase.idle
    cache := none
    busy := false
    end_count := 0 }

/-- Modelled from the spec: interleaved transitions of the N threads.  The
filter evaluation for the key deterministically yields `r` (cache
idempotence).  A thread that finds no entry and no pending evaluation
starts evaluating and sets the pending bit; a thread that finds the
pending bit blocks; a thread that finds an entry returns it; the
evaluating thread commits (one INSERT_END) and clears the pending bit; a
blocked thread wakes once an entry exists and returns it. -/
inductive wl_step (n : Nat) (r : Int) : wl_state n → wl_state n → Prop where
  | miss (s : wl_state n) (i : Fin n)
      (hth : s.threads i = thread_phase.idle)
      (hc : s.cache = none) (hb : s.busy = false) :
      wl_step n r s
        { threads := Function.update s.threads i thread_phase.evaluating
          cache := s.cache
          busy := true
          end_count := s.end_count }
  | block (s : wl_state n) (i : Fin n)
      (hth : s.threads i = thread_phase.idle)
      (hc : s.cache = none) (hb : s.busy = true) :
      wl_step n r s
        { threads := Function.update s.threads i thread_phase.waiting
          cache := s.cache
          busy := s.busy
          end_count := s.end_count }
  | hit (s : wl_state n) (i : Fin n) (v : Int)
      (hth : s.threads i = thread_phase.idle)
      (hc : s.cache = some v) :
      wl_step n r s
        { threads := Function.update s.threads i (thread_phase.done v)
          cache := s.cache
          busy := s.busy
          end_count := s.end_count }
  | finish (s : wl_state n) (i : Fin n)
      (hth : s.threads i = thread_phase.evaluating) :
      wl_step n r s
        { threads := Function.update s.threads i (thread_phase.done r)
          cache := some r
          busy := false
          end_count := s.end_count + 1 }
  | wake (s : wl_state n) (i : Fin n) (v : Int)
      (hth : s.threads i = thread_phase.waiting)
      (hc : s.cache = some v) :
      wl_step n r s
        { threads := Function.update s.threads i (thread_phase.done v)
          cache := s.cache
          busy := s.busy
          end_count := s.end_count }

/-- Wait-lookup states reachable from the initial state. -/
inductive wl_reachable (n : Nat) (r : Int) : wl_state n → Prop where
  | init : wl_reachable n r (wl_init n)
  | step {s t : wl_state n} : wl_reachable n r s → wl_step n r s t →
      wl_reachable n r t

/-- Claim C2: the default backpressure watermarks of a search context are
exactly pend_hw = 60 and pend_lw = 55, the constants LS_OBJ_PEND_HW and
LS_OBJ_PEND_LW of lib_search_priv.h. -/
theorem default_watermarks :
    LS_OBJ_PEND_HW = 60 ∧ LS_OBJ_PEND_LW = 55
      ∧ default_search_context.pend_hw = 60
      ∧ default_search_context.pend_lw = 55 :=
  ⟨rfl, rfl, rfl, rfl⟩

/-- Claim C3: the status of a search context is always one of exactly the
five states of `search_status_t`, and the lifecycle transition relation
holds precisely on the edges IDLE to ACTIVE (start), ACTIVE to DONE (odisk
EOF), DONE to EMPTY (drain), EMPTY to IDLE (stop), plus shutdown from any
state to SHUTDOWN; from SHUTDOWN the only transition is the self-loop, so
SHUTDOWN is terminal. -/
theorem search_status_lifecycle :
    (∀ s : search_status_t,
        s = search_status_t.SS_IDLE ∨ s = search_status_t.SS_ACTIVE
          ∨ s = search_status_t.SS_DONE ∨ s = search_status_t.SS_EMPTY
          ∨ s = search_status_t.SS_SHUTDOWN)
      ∧ (∀ s t : search_status_t, lifecycleStep s t ↔
          ((s = search_status_t.SS_IDLE ∧ t = search_status_t.SS_ACTIVE)
            ∨ (s = search_status_t.SS_ACTIVE ∧ t = search_status_t.SS_DONE)
            ∨ (s = search_status_t.SS_DONE ∧ t = search_status_t.SS_EMPTY)
            ∨ (s = search_status_t.SS_EMPTY ∧ t = search_status_t.SS_IDLE)
            ∨ t = search_status_t.SS_SHUTDOWN))
      ∧ (∀ t : search_status_t,
          lifecycleStep search_status_t.SS_SHUTDOWN t ↔
            t = search_status_t.SS_SHUTDOWN) := by
  refine ⟨?_, ?_, ?_⟩
  · intro s
    cases s <;> simp
  · intro s t
    constructor
    · intro h
      cases h <;> simp
    · intro h
      rcases h with ⟨hs, ht⟩ | ⟨hs, ht⟩ | ⟨hs, ht⟩ | ⟨hs, ht⟩ | ht
      · rw [hs, ht]; exact lifecycleStep.start
      · rw [hs, ht]; exact lifecycleStep.odiskEof
      · rw [hs, ht]; exact lifecycleStep.drain
      · rw [hs, ht]; exact lifecycleStep.stop
      · rw [ht]; exact lifecycleStep.shutdown s
  · intro t
    constructor
    · intro h
      cases h <;> rfl
    · intro h
      rw [h]; exact lifecycleStep.shutdown _

/-- Claim C9: in sstub_get_obj, sstub_lleaf_response and
sstub_lnode_response the 32-bit spare field receives the sub-header
pointer reduced mod 2 ^ 32; whenever the pointer does not fit in 32 bits
the stored value differs from the pointer, and two pointers 2 ^ 32 apart
are indistinguishable in the field. -/
theorem sstub_spare_truncates (shead_addr shead_size tot_len : Nat) :
    (sstub_get_obj_cheader shead_addr shead_size).spare = shead_addr % 2 ^ 32
      ∧ (sstub_lleaf_response_cheader shead_addr tot_len).spare
          = shead_addr % 2 ^ 32
      ∧ (sstub_lnode_response_cheader shead_addr tot_len).spare
          = shead_addr % 2 ^ 32
      ∧ (2 ^ 32 ≤ shead_addr →
          (sstub_get_obj_cheader shead_addr shead_size).spare ≠ shead_addr)
      ∧ (sstub_get_obj_cheader shead_addr shead_size).spare
          = (sstub_get_obj_cheader (shead_addr + 2 ^ 32) shead_size).spare := by
  refine ⟨rfl, rfl, rfl, ?_, ?_⟩
  · intro hbig
    have hlt : shead_addr % 2 ^ 32 < 2 ^ 32 :=
      Nat.mod_lt _ (by norm_num)
    simp only [sstub_get_obj_cheader, UINT32_MOD]
    omega
  · simp only [sstub_get_obj_cheader, UINT32_MOD]
    rw [Nat.add_mod_right]

/-- Witness for claim C9 at the concrete pointer value 2 ^ 32 + 5. -/
theorem sstub_spare_truncates_witness :
    (sstub_get_obj_cheader (2 ^ 32 + 5) 8).spare ≠ 2 ^ 32 + 5 :=
  (sstub_spare_truncates (2 ^ 32 + 5) 8 0).2.2.2.1 (by norm_num)

/-- Counterexample for claim C10: ENOMEM is a nonzero error, yet on a
DCTL_OP_READ request whose dctl call returns ENOMEM the active
assert(err != ENOMEM) aborts the program, which therefore sends no reply
at all rather than the two replies the claim asserts for every nonzero
error. -/
theorem process_request_enomem_counterexample :
    ENOMEM ≠ 0
      ∧ process_request dctl_op_t.DCTL_OP_READ
          { err := ENOMEM, dtype := 0, len := 0, buf := [] } = none := by
  constructor
  · decide
  · rfl

/-- Claim C10 (amended): when the underlying dctl operation fails with a
nonzero error other than ENOMEM, process_request sends two replies for
DCTL_OP_READ, DCTL_OP_LIST_NODES and DCTL_OP_LIST_LEAFS, an error reply
followed by a normal reply built from the shared static buffer, while
DCTL_OP_WRITE sends exactly the one error reply; at err = ENOMEM every
branch aborts on its assert and sends nothing. -/
theorem process_request_error_replies (res : dctl_result) (h : res.err ≠ 0)
    (hnm : res.err ≠ ENOMEM) :
    process_request dctl_op_t.DCTL_OP_READ res
        = some [dctl_reply.err_reply res.err,
                dctl_reply.read_reply res.dtype res.len res.buf]
      ∧ process_request dctl_op_t.DCTL_OP_LIST_NODES res
          = some [dctl_reply.err_reply res.err,
                  dctl_reply.list_reply res.len res.buf]
      ∧ process_request dctl_op_t.DCTL_OP_LIST_LEAFS res
          = some [dctl_reply.err_reply res.err,
                  dctl_reply.list_reply res.len res.buf]
      ∧ process_request dctl_op_t.DCTL_OP_WRITE res
          = some [dctl_reply.err_reply res.err]
      ∧ (∀ (cmd : dctl_op_t) (res2 : dctl_result), res2.err = ENOMEM →
          process_request cmd res2 = none) := by
  refine ⟨?_, ?_, ?_, ?_, ?_⟩
  · simp [process_request, h, hnm]
  · simp [process_request, h, hnm]
  · simp [process_request, h, hnm]
  · simp [process_request, hnm]
  · intro cmd res2 h2
    cases cmd <;> simp [process_request, h2]

/-- Witness for claim C10 at a concrete failing dctl result (err = 2). -/
theorem process_request_error_replies_witness :
    process_request dctl_op_t.DCTL_OP_READ
        { err := 2, dtype := 0, len := 0, buf := [] }
      = some [dctl_reply.err_reply 2, dctl_reply.read_reply 0 0 []] :=
  (process_request_error_replies
    { err := 2, dtype := 0, len := 0, buf := [] } (by decide) (by decide)).1

/-- Claim C7: sstub_send_obj enqueues (obj, ver_no) onto the
complete-object ring when `complete` is nonzero and onto the
partial-object ring otherwise; it returns 0 on a successful enqueue and
the full-ring error code, with the object not enqueued, when the chosen
ring is full. -/
theorem sstub_send_obj_routes (cs : cstate_t) (obj : Nat)
    (ver_no complete : Int) :
    (complete ≠ 0 →
        cs.complete_obj_ring.items.length < cs.complete_obj_ring.cap →
        sstub_send_obj cs obj ver_no complete
          = ({ flags := cs.flags ||| CSTATE_OBJ_DATA
               complete_obj_ring :=
                 { cap := cs.complete_obj_ring.cap
                   items := cs.complete_obj_ring.items ++ [(obj, ver_no)] }
               part_obj_ring := cs.part_obj_ring }, 0))
      ∧ (complete ≠ 0 →
          cs.complete_obj_ring.cap ≤ cs.complete_obj_ring.items.length →
          sstub_send_obj cs obj ver_no complete
            = ({ cs with flags := cs.flags ||| CSTATE_OBJ_DATA },
                RING_ERR_FULL))
      ∧ (complete = 0 →
          cs.part_obj_ring.items.length < cs.part_obj_ring.cap →
          sstub_send_obj cs obj ver_no complete
            = ({ flags := cs.flags ||| CSTATE_OBJ_DATA
                 complete_obj_ring := cs.complete_obj_ring
                 part_obj_ring :=
                   { cap := cs.part_obj_ring.cap
                     items := cs.part_obj_ring.items ++ [(obj, ver_no)] } }, 0))
      ∧ (complete = 0 →
          cs.part_obj_ring.cap ≤ cs.part_obj_ring.items.length →
          sstub_send_obj cs obj ver_no complete
            = ({ cs with flags := cs.flags ||| CSTATE_OBJ_DATA },
                RING_ERR_FULL)) := by
  refine ⟨?_, ?_, ?_, ?_⟩
  · intro hc hroom
    simp [sstub_send_obj, ring_2enq, hc, Nat.not_le.mpr hroom]
  · intro hc hfull
    simp [sstub_send_obj, ring_2enq, hc, hfull]
  · intro hc hroom
    simp [sstub_send_obj, ring_2enq, hc, Nat.not_le.mpr hroom]
  · intro hc hfull
    simp [sstub_send_obj, ring_2enq, hc, hfull]

/-- Witness for claim C7: sending a complete object into an empty
complete-object ring of capacity 2 succeeds with return value 0. -/
theorem sstub_send_obj_routes_witness :
    sstub_send_obj
        { flags := 0
          complete_obj_ring := { cap := 2, items := [] }
          part_obj_ring := { cap := 2, items := [] } } 7 1 1
      = ({ flags := 0 ||| CSTATE_OBJ_DATA
           complete_obj_ring := { cap := 2, items := [(7, 1)] }
           part_obj_ring := { cap := 2, items := [] } }, 0) :=
  (sstub_send_obj_routes
      { flags := 0
        complete_obj_ring := { cap := 2, items := [] }
        part_obj_ring := { cap := 2, items := [] } } 7 1 1).1
    (by decide) (by decide)

/-- The release loop of sstub_flush_objs returns exactly the object slots
of the ring contents, in order. -/
theorem flush_ring_items_eq_map (l : List (Nat × Int)) :
    flush_ring_items l = l.map Prod.fst := by
  induction l with
  | nil => rfl
  | cons p rest ih =>
    obtain ⟨o, v⟩ := p
    simp [flush_ring_items, ih]

/-- Claim C8: sstub_flush_objs dequeues every object from the
complete-object ring and then every object from the partial-object ring,
invokes the release callback exactly once per dequeued object regardless
of its version number, leaves both rings empty and returns 0. -/
theorem sstub_flush_objs_drains (cs : cstate_t) (ver_no : Int) :
    sstub_flush_objs cs ver_no
      = ({ cs with
            complete_obj_ring := { cs.complete_obj_ring with items := [] }
            part_obj_ring := { cs.part_obj_ring with items := [] } },
          (cs.complete_obj_ring.items ++ cs.part_obj_ring.items).map Prod.fst,
          0) := by
  simp [sstub_flush_objs, flush_ring_items_eq_map]

/-- Consuming a stream that contains no INSERT_END entry materializes no
record beyond those already committed. -/
theorem consume_fold_no_end (l : List cache_ring_entry) :
    ∀ st : Option insert_builder × List cache_record,
      (∀ e ∈ l, is_insert_end e = false) →
      (List.foldl consume_step st l).2 = st.2 := by
  induction l with
  | nil => intro st _; rfl
  | cons e rest ih =>
    intro st h
    have he : is_insert_end e = false := h e (by simp)
    have hstep : (consume_step st e).2 = st.2 := by
      obtain ⟨ob, recs⟩ := st
      cases e <;> cases ob <;> simp [consume_step, is_insert_end] at he ⊢
    rw [List.foldl_cons,
      ih _ (fun x hx => h x (List.mem_cons_of_mem _ hx)), hstep]

/-- Folding the INSERT_IATTR entries of an attribute list into an open
builder appends exactly that list to the accumulated input set. -/
theorem consume_fold_iattrs (ia : List cache_attr_entry) (oid : Nat) :
    ∀ (b : insert_builder) (recs : List cache_record),
      List.foldl consume_step (some b, recs)
          (ia.map (cache_ring_entry.insert_iattr oid))
        = (some { b with iattr := b.iattr ++ ia }, recs) := by
  induction ia with
  | nil => intro b recs; simp
  | cons a rest ih =>
    intro b recs
    rw [List.map_cons, List.foldl_cons]
    have hstep : consume_step (some b, recs) (cache_ring_entry.insert_iattr oid a)
        = (some { b with iattr := b.iattr ++ [a] }, recs) := rfl
    rw [hstep, ih]
    simp

/-- Folding the INSERT_OATTR entries of an attribute list into an open
builder appends exactly that list to the accumulated output set. -/
theorem consume_fold_oattrs (oa : List cache_attr_entry) (oid : Nat) :
    ∀ (b : insert_builder) (recs : List cache_record),
      List.foldl consume_step (some b, recs)
          (oa.map (cache_ring_entry.insert_oattr oid))
        = (some { b with oattr := b.oattr ++ oa }, recs) := by
  induction oa with
  | nil => intro b recs; simp
  | cons a rest ih =>
    intro b recs
    rw [List.map_cons, List.foldl_cons]
    have hstep : consume_step (some b, recs) (cache_ring_entry.insert_oattr oid a)
        = (some { b with oattr := b.oattr ++ [a] }, recs) := rfl
    rw [hstep, ih]
    simp

/-- Claim C5: an insert is the typed stream INSERT_START, then the
INSERT_IATTR entries, then the INSERT_OATTR entries, then INSERT_END; the
persistence thread consuming a stream with no INSERT_END materializes no
record, and consuming a whole well-formed stream materializes exactly the
one record carrying the accumulated input set, output set and result. -/
theorem insert_protocol :
    (∀ stream : List cache_ring_entry,
        (∀ e ∈ stream, is_insert_end e = false) → consume_records stream = [])
      ∧ (∀ (oid cache_table : Nat) (ia oa : List cache_attr_entry) (res : Int),
          consume_records (insert_stream oid cache_table ia oa res)
            = [{ oid := oid, iattr := ia, oattr := oa, result := res }]) := by
  constructor
  · intro stream h
    exact consume_fold_no_end stream (none, []) h
  · intro oid cache_table ia oa res
    unfold consume_records insert_stream
    rw [List.foldl_cons]
    have hstart : consume_step (none, [])
        (cache_ring_entry.insert_start oid cache_table)
        = (some { oid := oid, iattr := [], oattr := [] }, []) := rfl
    rw [hstart, List.foldl_append, List.foldl_append,
      consume_fold_iattrs, consume_fold_oattrs]
    simp [consume_step]

/-- Witness for claim C5: a stream holding only an INSERT_START entry
(no INSERT_END seen) materializes no record. -/
theorem insert_protocol_witness :
    consume_records [cache_ring_entry.insert_start 42 0] = [] :=
  insert_protocol.1 [cache_ring_entry.insert_start 42 0] (by decide)

/-- Claim C1: in every reachable flow-control state of a search context
the number of objects in flight satisfies pend_count ≤ hw; a step that
reads a new object (increments pend_count) is possible only while the
reader is not suspended and pend_count is below hw, and a step that wakes
a suspended reader leaves pend_count at or below lw. -/
theorem backpressure_invariant (hw lw : Nat) (s : bp_state)
    (h : bp_reachable hw lw s) :
    s.pend_count ≤ hw
      ∧ (∀ t : bp_state, bp_step hw lw s t →
          t.pend_count = s.pend_count + 1 →
          s.blocked = false ∧ s.pend_count < hw)
      ∧ (∀ t : bp_state, bp_step hw lw s t →
          s.blocked = true → t.blocked = false → t.pend_count ≤ lw) := by
  refine ⟨?_, ?_, ?_⟩
  · induction h with
    | init => exact Nat.zero_le hw
    | step hr hst ih =>
      cases hst with
      | read hnb hlt => exact hlt
      | release hpos => dsimp only; omega
  · intro t hst hinc
    cases hst with
    | read hnb hlt => exact ⟨hnb, hlt⟩
    | release hpos => dsimp only at hinc; omega
  · intro t hst hblk hunblk
    cases hst with
    | read hnb hlt => rw [hnb] at hblk; cases hblk
    | release hpos =>
      dsimp only at hunblk ⊢
      rw [hblk, Bool.true_and] at hunblk
      have hnot : ¬ lw < s.pend_count - 1 := by
        intro hlt2
        rw [decide_eq_true hlt2] at hunblk
        cases hunblk
      omega

/-- Witness for claim C1 at the default watermarks and the initial state. -/
theorem backpressure_invariant_witness : bp_init.pend_count ≤ 60 :=
  (backpressure_invariant 60 55 bp_init bp_reachable.init).1

/-- Byte-wise signature comparison agrees with list equality. -/
theorem sig_match_iff (x y : List Nat) : sig_match x y = true ↔ x = y := by
  induction x generalizing y with
  | nil => cases y <;> simp [sig_match]
  | cons a xs ih =>
    cases y with
    | nil => simp [sig_match]
    | cons b ys => simp [sig_match, ih]

/-- The digest fold preserves the length of the running state. -/
theorem sig_fold_length (l : List Nat) :
    ∀ (st : List Nat) (i : Nat), (sig_fold st i l).length = st.length := by
  induction l with
  | nil => intro st i; rfl
  | cons b rest ih =>
    intro st i
    rw [sig_fold, ih]
    simp [sig_mix]

/-- The modelled digest always has 16 bytes. -/
theorem sig_cal_length (x : List Nat) : (sig_cal x).length = 16 := by
  rw [sig_cal, sig_fold_length]
  simp

/-- The digest fold keeps every state byte below 256. -/
theorem sig_fold_bytes (l : List Nat) :
    ∀ (st : List Nat) (i : Nat), (∀ b ∈ st, b < 256) →
      ∀ b ∈ sig_fold st i l, b < 256 := by
  induction l with
  | nil => intro st i hst; exact hst
  | cons c rest ih =>
    intro st i hst
    rw [sig_fold]
    apply ih
    intro b hb
    rcases List.mem_or_eq_of_mem_set hb with hmem | hval
    · exact hst b hmem
    · rw [hval]
      exact Nat.mod_lt _ (by norm_num)

/-- Every byte of the modelled digest is below 256. -/
theorem sig_cal_bytes (x : List Nat) : ∀ b ∈ sig_cal x, b < 256 := by
  apply sig_fold_bytes
  intro b hb
  rw [List.eq_of_mem_replicate hb]
  norm_num

/-- A byte list with all bytes below 256 has base-256 value below
256 to the power of its length. -/
theorem bytes_val_lt (l : List Nat) (h : ∀ b ∈ l, b < 256) :
    bytes_val l < 256 ^ l.length := by
  induction l with
  | nil => simp [bytes_val]
  | cons b rest ih =>
    have hb : b < 256 := h b (by simp)
    have hr : bytes_val rest < 256 ^ rest.length :=
      ih (fun x hx => h x (by simp [hx]))
    rw [bytes_val, List.length_cons, pow_succ]
    omega

/-- Base-256 evaluation is injective on byte lists of equal length. -/
theorem bytes_val_inj (x : List Nat) :
    ∀ y : List Nat, x.length = y.length → (∀ a ∈ x, a < 256) →
      (∀ a ∈ y, a < 256) → bytes_val x = bytes_val y → x = y := by
  induction x with
  | nil =>
    intro y hlen _ _ _
    cases y with
    | nil => rfl
    | cons b ys => simp at hlen
  | cons a xs ih =>
    intro y hlen hx hy hv
    cases y with
    | nil => simp at hlen
    | cons b ys =>
      have ha : a < 256 := hx a (by simp)
      have hb : b < 256 := hy b (by simp)
      rw [bytes_val, bytes_val] at hv
      have hab : a = b ∧ bytes_val xs = bytes_val ys := by omega
      rw [hab.1]
      have hxs : xs = ys := by
        apply ih ys (by simpa using hlen)
          (fun c hc => hx c (by simp [hc]))
          (fun c hc => hy c (by simp [hc])) hab.2
      rw [hxs]

/-- Pigeonhole: no function from byte buffers to 16-byte digests is
injective, whatever the mixing function. -/
theorem digest_collision (f : List Nat → List Nat)
    (hlen : ∀ b : List Nat, (f b).length = 16)
    (hbyte : ∀ (b : List Nat), ∀ x ∈ f b, x < 256) :
    ∃ x y : List Nat, x ≠ y ∧ f x = f y := by
  have hcard : Fintype.card (Fin (256 ^ 16)) < Fintype.card (Fin (256 ^ 16 + 1)) := by
    rw [Fintype.card_fin, Fintype.card_fin]
    exact Nat.lt_succ_self _
  obtain ⟨i, j, hne, heq⟩ := Fintype.exists_ne_map_eq_of_card_lt
    (fun i : Fin (256 ^ 16 + 1) =>
      (⟨bytes_val (f (List.replicate i.val 0)), by
          have h1 := bytes_val_lt (f (List.replicate i.val 0))
            (fun x hx => hbyte _ x hx)
          rwa [hlen] at h1⟩ : Fin (256 ^ 16))) hcard
  refine ⟨List.replicate i.val 0, List.replicate j.val 0, ?_, ?_⟩
  · intro hcontra
    apply hne
    apply Fin.ext
    have hlen2 := congrArg List.length hcontra
    simpa using hlen2
  · have hval : bytes_val (f (List.replicate i.val 0))
        = bytes_val (f (List.replicate j.val 0)) := congrArg Fin.val heq
    exact bytes_val_inj _ _ (by rw [hlen, hlen])
      (fun a ha => hbyte _ a ha) (fun a ha => hbyte _ a ha) hval

/-- Counterexample for claim C4: two byte-distinct buffers with the same
modelled 16-byte digest, so digest equality does not imply byte equality
of the buffers. -/
theorem sig_cal_iff_counterexample :
    ¬ (∀ x y : List Nat, sig_cal x = sig_cal y ↔ x = y) := by
  intro h
  have hc := (h (1 :: List.replicate 16 0)
    (List.replicate 16 0 ++ [1])).mp (by decide)
  exact absurd hc (by decide)

/-- Claim C4 (amended): byte-equal buffers receive equal 16-byte digests
and signatures are compared solely by byte equality of the digest, but the
converse direction fails: the modelled sig_cal has a collision, and so
does every function producing 16-byte digests. -/
theorem sig_cal_correctness :
    (∀ x y : List Nat, x = y → sig_cal x = sig_cal y)
      ∧ (∀ s t : List Nat, sig_match s t = true ↔ s = t)
      ∧ (∀ x : List Nat, (sig_cal x).length = 16)
      ∧ (∀ x : List Nat, ∀ b ∈ sig_cal x, b < 256)
      ∧ (∃ x y : List Nat, x ≠ y ∧ sig_cal x = sig_cal y)
      ∧ (∀ f : List Nat → List Nat, (∀ b : List Nat, (f b).length = 16) →
          (∀ (b : List Nat), ∀ x ∈ f b, x < 256) →
          ∃ x y : List Nat, x ≠ y ∧ f x = f y) := by
  refine ⟨?_, sig_match_iff, sig_cal_length, sig_cal_bytes, ?_, digest_collision⟩
  · intro x y hxy
    rw [hxy]
  · exact ⟨1 :: List.replicate 16 0, List.replicate 16 0 ++ [1],
      by decide, by decide⟩

/-- Witness for claim C4 at concrete buffers. -/
theorem sig_cal_correctness_witness :
    sig_cal [3, 7] = sig_cal [3, 7] ∧ sig_match [0, 1] [0, 1] = true :=
  ⟨sig_cal_correctness.1 [3, 7] [3, 7] rfl,
    (sig_cal_correctness.2.1 [0, 1] [0, 1]).mpr rfl⟩

/-- The inductive invariant of the wait-lookup system: at most one thread
is between add_start and add_end, a thread evaluates only while the
pending bit is set, the pending bit excludes a committed entry, the number
of INSERT_END entries equals the number of committed entries (0 or 1), a
committed entry holds the evaluation result, and a finished thread got the
evaluation result with an entry committed. -/
def wl_inv (n : Nat) (r : Int) (s : wl_state n) : Prop :=
  (∀ i j : Fin n, s.threads i = thread_phase.evaluating →
      s.threads j = thread_phase.evaluating → i = j)
    ∧ (∀ i : Fin n, s.threads i = thread_phase.evaluating → s.busy = true)
    ∧ (s.busy = true → s.cache = none)
    ∧ s.end_count = (if s.cache.isSome then 1 else 0)
    ∧ (∀ v : Int, s.cache = some v → v = r)
    ∧ (∀ (i : Fin n) (v : Int), s.threads i = thread_phase.done v →
        v = r ∧ s.cache.isSome = true)

/-- The initial wait-lookup state satisfies the invariant. -/
theorem wl_inv_init (n : Nat) (r : Int) : wl_inv n r (wl_init n) := by
  refine ⟨?_, ?_, ?_, ?_, ?_, ?_⟩ <;> simp [wl_init]

/-- Every wait-lookup step preserves the invariant. -/
theorem wl_inv_step (n : Nat) (r : Int) (s t : wl_state n)
    (hinv : wl_inv n r s) (hst : wl_step n r s t) : wl_inv n r t := by
  obtain ⟨inv1, inv2, inv3, inv4, inv5, inv6⟩ := hinv
  cases hst with
  | miss i hth hc hb =>
    refine ⟨?_, ?_, ?_, ?_, ?_, ?_⟩ <;> dsimp only
    · intro a b ha hb2
      by_cases hai : a = i
      · by_cases hbi : b = i
        · rw [hai, hbi]
        · rw [Function.update_noteq hbi] at hb2
          exact absurd (inv2 b hb2) (by rw [hb]; simp)
      · rw [Function.update_noteq hai] at ha
        exact absurd (inv2 a ha) (by rw [hb]; simp)
    · intro a _
      rfl
    · intro _
      exact hc
    · exact inv4
    · exact inv5
    · intro a v hv
      by_cases hai : a = i
      · rw [hai, Function.update_same] at hv
        simp at hv
      · rw [Function.update_noteq hai] at hv
        have h6 := inv6 a v hv
        rw [hc] at h6
        simp at h6
  | block i hth hc hb =>
    refine ⟨?_, ?_, ?_, ?_, ?_, ?_⟩ <;> dsimp only
    · intro a b ha hb2
      by_cases hai : a = i
      · rw [hai, Function.update_same] at ha
        simp at ha
      · by_cases hbi : b = i
        · rw [hbi, Function.update_same] at hb2
          simp at hb2
        · rw [Function.update_noteq hai] at ha
          rw [Function.update_noteq hbi] at hb2
          exact inv1 a b ha hb2
    · intro a ha
      by_cases hai : a = i
      · rw [hai, Function.update_same] at ha
        simp at ha
      · rw [Function.update_noteq hai] at ha
        exact inv2 a ha
    · exact inv3
    · exact inv4
    · exact inv5
    · intro a v hv
      by_cases hai : a = i
      · rw [hai, Function.update_same] at hv
        simp at hv
      · rw [Function.update_noteq hai] at hv
        exact inv6 a v hv
  | hit i v hth hc =>
    refine ⟨?_, ?_, ?_, ?_, ?_, ?_⟩ <;> dsimp only
    · intro a b ha hb2
      by_cases hai : a = i
      · rw [hai, Function.update_same] at ha
        simp at ha
      · by_cases hbi : b = i
        · rw [hbi, Function.update_same] at hb2
          simp at hb2
        · rw [Function.update_noteq hai] at ha
          rw [Function.update_noteq hbi] at hb2
          exact inv1 a b ha hb2
    · intro a ha
      by_cases hai : a = i
      · rw [hai, Function.update_same] at ha
        simp at ha
      · rw [Function.update_noteq hai] at ha
        exact inv2 a ha
    · exact inv3
    · exact inv4
    · exact inv5
    · intro a w hw
      by_cases hai : a = i
      · rw [hai, Function.update_same] at hw
        have hvw : v = w := by injection hw
        refine ⟨?_, ?_⟩
        · rw [← hvw]
          exact inv5 v hc
        · rw [hc]
          rfl
      · rw [Function.update_noteq hai] at hw
        exact inv6 a w hw
  | finish i hth =>
    have hbusy : s.busy = true := inv2 i hth
    have hcnone : s.cache = none := inv3 hbusy
    have hend0 : s.end_count = 0 := by
      rw [hcnone] at inv4
      simpa using inv4
    refine ⟨?_, ?_, ?_, ?_, ?_, ?_⟩ <;> dsimp only
    · intro a b ha hb2
      by_cases hai : a = i
      · rw [hai, Function.update_same] at ha
        simp at ha
      · rw [Function.update_noteq hai] at ha
        exact absurd (inv1 a i ha hth) hai
    · intro a ha
      by_cases hai : a = i
      · rw [hai, Function.update_same] at ha
        simp at ha
      · rw [Function.update_noteq hai] at ha
        exact absurd (inv1 a i ha hth) hai
    · intro hcon
      simp at hcon
    · rw [hend0]
      simp
    · intro v hv
      have hrv : r = v := by injection hv
      rw [hrv]
    · intro a v hv
      by_cases hai : a = i
      · rw [hai, Function.update_same] at hv
        have hrv : r = v := by injection hv
        exact ⟨hrv.symm, rfl⟩
      · rw [Function.update_noteq hai] at hv
        exact ⟨(inv6 a v hv).1, rfl⟩
  | wake i v hth hc =>
    refine ⟨?_, ?_, ?_, ?_, ?_, ?_⟩ <;> dsimp only
    · intro a b ha hb2
      by_cases hai : a = i
      · rw [hai, Function.update_same] at ha
        simp at ha
      · by_cases hbi : b = i
        · rw [hbi, Function.update_same] at hb2
          simp at hb2
        · rw [Function.update_noteq hai] at ha
          rw [Function.update_noteq hbi] at hb2
          exact inv1 a b ha hb2
    · intro a ha
      by_cases hai : a = i
      · rw [hai, Function.update_same] at ha
        simp at ha
      · rw [Function.update_noteq hai] at ha
        exact inv2 a ha
    · exact inv3
    · exact inv4
    · exact inv5
    · intro a w hw
      by_cases hai : a = i
      · rw [hai, Function.update_same] at hw
        have hvw : v = w := by injection hw
        refine ⟨?_, ?_⟩
        · rw [← hvw]
          exact inv5 v hc
        · rw [hc]
          rfl
      · rw [Function.update_noteq hai] at hw
        exact inv6 a w hw

/-- Every reachable wait-lookup state satisfies the invariant. -/
theorem wl_inv_reachable (n : Nat) (r : Int) (s : wl_state n)
    (h : wl_reachable n r s) : wl_inv n r s := by
  induction h with
  | init => exact wl_inv_init n r
  | step hr hst ih => exact wl_inv_step n r _ _ ih hst

/-- Claim C6: in every reachable state of N threads calling
cache_wait_lookup on one (fsig, oid) key, at most one thread is evaluating
at a time, at most one INSERT_END has been emitted, every finished thread
received the one evaluation result, and once all threads have finished
(and there is at least one) exactly one INSERT_END was emitted. -/
theorem wait_lookup_at_most_one (n : Nat) (r : Int) (s : wl_state n)
    (h : wl_reachable n r s) :
    (∀ i j : Fin n, s.threads i = thread_phase.evaluating →
        s.threads j = thread_phase.evaluating → i = j)
      ∧ s.end_count ≤ 1
      ∧ (∀ (i : Fin n) (v : Int), s.threads i = thread_phase.done v → v = r)
      ∧ (0 < n → (∀ i : Fin n, ∃ v : Int, s.threads i = thread_phase.done v) →
          s.end_count = 1) := by
  obtain ⟨inv1, inv2, inv3, inv4, inv5, inv6⟩ := wl_inv_reachable n r s h
  refine ⟨inv1, ?_, ?_, ?_⟩
  · rw [inv4]
    by_cases hcs : s.cache.isSome = true <;> simp [hcs]
  · intro i v hv
    exact (inv6 i v hv).1
  · intro hn hall
    obtain ⟨v, hv⟩ := hall ⟨0, hn⟩
    have hsome := (inv6 ⟨0, hn⟩ v hv).2
    rw [inv4, hsome]
    rfl

/-- Witness for claim C6 in the initial two-thread system. -/
theorem wait_lookup_at_most_one_witness : (wl_init 2).end_count ≤ 1 :=
  (wait_lookup_at_most_one 2 0 (wl_init 2) wl_reachable.init).2.1

/-- Witness for claim C2 read off the constants. -/
theorem default_watermarks_witness : LS_OBJ_PEND_HW = 60 :=
  default_watermarks.1

/-- Witness for claim C3: the start edge is a legal lifecycle step. -/
theorem search_status_lifecycle_witness :
    lifecycleStep search_status_t.SS_IDLE search_status_t.SS_ACTIVE :=
  (search_status_lifecycle.2.1 search_status_t.SS_IDLE
    search_status_t.SS_ACTIVE).mpr (Or.inl ⟨rfl, rfl⟩)

/-- Witness for claim C8 at a concrete connection state holding one
complete and one partial object. -/
theorem sstub_flush_objs_drains_witness :
    sstub_flush_objs
        { flags := 0
          complete_obj_ring := { cap := 4, items := [(5, 1)] }
          part_obj_ring := { cap := 4, items := [(9, 2)] } } 3
      = ({ flags := 0
           complete_obj_ring := { cap := 4, items := [] }
           part_obj_ring := { cap := 4, items := [] } }, [5, 9], 0) :=
  sstub_flush_objs_drains
    { flags := 0
      complete_obj_ring := { cap := 4, items := [(5, 1)] }
      part_obj_ring := { cap := 4, items := [(9, 2)] } } 3
